import Mathlib

/-!
Shallow embedding of `src/app/page.tsx` (web-ide-first-try).

The page is a single React component with four pieces of state
(`files`, `selectedFile`, `terminalOutput`, `error`), a folder-pick
handler `handleFolderSelect`, a recursive tree builder `readDirectory`,
and a tree renderer `renderFileTree` whose rows select files on click.

The browser environment (File System Access API) is modelled
explicitly: a directory handle yields a list of entries, and each
read step (file text, subdirectory enumeration) either succeeds or
rejects with a JavaScript error value carrying `name` and `message`.
-/

/-- A JavaScript error value as observed by the `catch` block:
only its `name` and `message` are consulted. -/
structure JsError where
  name : String
  message : String
deriving Repr, DecidableEq

/-- The `type` discriminator of `FileNode` (`'file' | 'directory'`). -/
inductive NodeType where
  | file
  | directory
deriving Repr, DecidableEq

/-- The `FileNode` interface of page.tsx: `name`, `type`, optional
`content`, optional `children`. -/
inductive FileNode where
  | mk (name : String) (type : NodeType) (content : Option String)
       (children : Option (List FileNode))
deriving Repr

/-- Field accessor for `name`. -/
def FileNode.name : FileNode → String
  | .mk n _ _ _ => n

/-- Field accessor for `type`. -/
def FileNode.type : FileNode → NodeType
  | .mk _ t _ _ => t

/-- Field accessor for `content`. -/
def FileNode.content : FileNode → Option String
  | .mk _ _ c _ => c

/-- Field accessor for `children`. -/
def FileNode.children : FileNode → Option (List FileNode)
  | .mk _ _ _ ch => ch

/-- One entry yielded by a directory handle's `values()` iteration.
A file entry's `getFile()/text()` either yields the file's text
(`file`) or rejects (`badFile`); a directory entry's own iteration
either yields its entries (`dir`) or rejects (`badDir`).  This models
every point at which the recursive read can fail, at any depth. -/
inductive FsEntry where
  | file (name text : String)
  | badFile (name : String) (err : JsError)
  | dir (name : String) (entries : List FsEntry)
  | badDir (name : String) (err : JsError)
deriving Repr

/-- The name of an entry (`entry.name`). -/
def FsEntry.name : FsEntry → String
  | .file n _ => n
  | .badFile n _ => n
  | .dir n _ => n
  | .badDir n _ => n

/-- The root directory handle returned by `showDirectoryPicker`:
its `values()` iteration either yields the entry list or rejects. -/
inductive DirHandle where
  | ok (entries : List FsEntry)
  | bad (err : JsError)
deriving Repr

/-- The body of `readDirectory`'s `for await` loop (page.tsx:57-77):
walk the entries in order; a file entry is read and pushed as a
file node `{name, type: 'file', content}`; a directory entry is
recursed into and pushed as `{name, type: 'directory', children}`;
the first rejection aborts the whole build. -/
def readEntries : List FsEntry → Except JsError (List FileNode)
  | [] => .ok []
  | .file n t :: rest =>
    match readEntries rest with
    | .error e => .error e
    | .ok tail => .ok (FileNode.mk n .file (some t) none :: tail)
  | .badFile _ err :: _ => .error err
  | .dir n sub :: rest =>
    match readEntries sub with
    | .error e => .error e
    | .ok children =>
      match readEntries rest with
      | .error e => .error e
      | .ok tail => .ok (FileNode.mk n .directory none (some children) :: tail)
  | .badDir _ err :: _ => .error err

/-- `readDirectory(dirHandle)` (page.tsx:57): iterate the handle's
entries; a rejecting iteration propagates as a rejection. -/
def readDirectory : DirHandle → Except JsError (List FileNode)
  | .bad e => .error e
  | .ok entries => readEntries entries

/-- The `selectedFile` state shape `{ name, content }`. -/
structure Selected where
  name : String
  content : String
deriving Repr, DecidableEq

/-- The component state of `Home` (page.tsx:20-23). -/
structure AppState where
  files : List FileNode
  selectedFile : Option Selected
  terminalOutput : List String
  error : Option String
deriving Repr

/-- The initial component state (`useState` initial values). -/
def initialState : AppState :=
  { files := [], selectedFile := none, terminalOutput := [], error := none }

/-- The unsupported-browser message (page.tsx:33). -/
def unsupportedMsg : String :=
  "Your browser does not support the File System Access API. Please use a modern browser like Chrome or Edge."

/-- The message of the error thrown for a cross-origin iframe (page.tsx:40). -/
def iframeMsg : String :=
  "This feature cannot be used within an iframe. Please open the application in a new tab."

/-- The SecurityError banner message (page.tsx:50). -/
def securityMsg : String :=
  "Cannot access files due to security restrictions. Please try opening the application in a new tab."

/-- The fallback banner message (page.tsx:52). -/
def fallbackMsg : String :=
  "Failed to open folder. Please try again."

/-- The browser environment a single `handleFolderSelect` call runs in:
whether `showDirectoryPicker` exists on `window`, whether
`window.top !== window.self`, and what awaiting `showDirectoryPicker()`
does (reject with a JsError, e.g. an AbortError on user cancellation,
or resolve with a directory handle). -/
structure Env where
  supported : Bool
  inIframe : Bool
  picker : Except JsError DirHandle

/-- A state-setter call made by `handleFolderSelect`
(`setError` or `setFiles`). -/
inductive SetterCall where
  | setErrorAct (e : Option String)
  | setFilesAct (fs : List FileNode)

/-- Apply one state-setter call to the component state. -/
def applyAction (s : AppState) : SetterCall → AppState
  | .setErrorAct e => { s with error := e }
  | .setFilesAct fs => { s with files := fs }

/-- Apply a sequence of state-setter calls in order. -/
def applyActions (acts : List SetterCall) (s : AppState) : AppState :=
  acts.foldl applyAction s

/-- The `try` block of `handleFolderSelect` (page.tsx:37-46): throw on
a cross-origin iframe, await the picker, then run the recursive read;
any rejection propagates to the `catch`. -/
def pickAndRead (env : Env) : Except JsError (List FileNode) :=
  if env.inIframe then .error ⟨"Error", iframeMsg⟩
  else
    match env.picker with
    | .error e => .error e
    | .ok dirHandle => readDirectory dirHandle

/-- The `catch` block's banner message (page.tsx:47-54): a
SecurityError gets the dedicated message; otherwise
`error.message || fallback` (an empty message falls back). -/
def catchMessage (e : JsError) : String :=
  if e.name = "SecurityError" then securityMsg
  else if e.message = "" then fallbackMsg
  else e.message

/-- The sequence of state-setter calls one `handleFolderSelect`
invocation performs (page.tsx:29-55): `setError(null)` first; then
either the unsupported message, or — from the try/catch — a single
`setFiles` on success or a single `setError` on any rejection. -/
def handleFolderSelectActions (env : Env) : List SetterCall :=
  SetterCall.setErrorAct none ::
    (if env.supported = false then
      [SetterCall.setErrorAct (some unsupportedMsg)]
    else
      match pickAndRead env with
      | .ok filesData => [SetterCall.setFilesAct filesData]
      | .error e => [SetterCall.setErrorAct (some (catchMessage e))])

/-- The net effect of one `handleFolderSelect` invocation on the
component state, given the environment's behaviour. -/
def handleFolderSelect (env : Env) (s : AppState) : AppState :=
  applyActions (handleFolderSelectActions env) s

/-- JavaScript `a || b` on a possibly-absent string
(`node.content || ''`): an absent or empty (falsy) string yields
the default. -/
def jsOrElse (a : Option String) (b : String) : String :=
  match a with
  | none => b
  | some s => if s = "" then b else s

/-- The row `onClick` handler (page.tsx:85-89): only a file-kind node
updates the selection, to `{name: node.name, content: node.content || ''}`;
a directory-kind node leaves the state untouched. -/
def handleRowClick (node : FileNode) (s : AppState) : AppState :=
  match node.type with
  | .file => { s with selectedFile := some ⟨node.name, jsOrElse node.content ""⟩ }
  | .directory => s

/-- One visual row emitted by `renderFileTree`: the label shown on the
button and the `marginLeft` (in px) its wrapping div sets. -/
structure Row where
  label : String
  marginLeft : Nat
deriving Repr, DecidableEq

/-- `renderFileTree(nodes, level)` (page.tsx:79-101), flattened to the
sequence of rows in document order: each node contributes its own row
(margin `level * 16` px), then — when `node.children` is present —
the rows of its children at `level + 1`, then its following siblings. -/
def renderFileTree : List FileNode → Nat → List Row
  | [], _ => []
  | .mk n _ _ ch :: rest, level =>
    ⟨n, level * 16⟩ ::
      ((match ch with
        | some cs => renderFileTree cs (level + 1)
        | none => []) ++ renderFileTree rest level)

/-- The children list a node is traversed with (`node.children`,
absent meaning none are rendered). -/
def FileNode.childrenList (node : FileNode) : List FileNode :=
  (FileNode.children node).getD []

/-- Spec-side renderer, written from the spec's words: a depth-first
pre-order traversal listing each node's name with its depth, each
node before its children, siblings in order. -/
def renderRowsSpec : List FileNode → Nat → List (String × Nat)
  | [], _ => []
  | .mk n _ _ ch :: rest, depth =>
    (n, depth) ::
      ((match ch with
        | some cs => renderRowsSpec cs (depth + 1)
        | none => []) ++ renderRowsSpec rest depth)

/-- One-to-one, in-order correspondence between a directory's entries
and the nodes built for them: one node per entry, bearing the entry's
name, file entries giving file-kind nodes and directory entries giving
directory-kind nodes whose `children` correspond, recursively, to the
subdirectory's own entries. -/
inductive TreeMatches : List FsEntry → List FileNode → Prop where
  | nil : TreeMatches [] []
  | file {n t : String} {rest : List FsEntry} {c : Option String}
      {tail : List FileNode} :
      TreeMatches rest tail →
      TreeMatches (FsEntry.file n t :: rest)
        (FileNode.mk n NodeType.file c none :: tail)
  | dir {n : String} {sub rest : List FsEntry}
      {children tail : List FileNode} :
      TreeMatches sub children →
      TreeMatches rest tail →
      TreeMatches (FsEntry.dir n sub :: rest)
        (FileNode.mk n NodeType.directory none (some children) :: tail)

/-- The (name, text) pairs of all file entries in a list of entries,
at every depth, in depth-first order (text wrapped in `some` for
comparison with node contents). -/
def filesOfEntries : List FsEntry → List (String × Option String)
  | [] => []
  | .file n t :: rest => (n, some t) :: filesOfEntries rest
  | .badFile _ _ :: rest => filesOfEntries rest
  | .dir _ sub :: rest => filesOfEntries sub ++ filesOfEntries rest
  | .badDir _ _ :: rest => filesOfEntries rest

/-- The (name, content) pairs of all file-kind nodes in a forest, at
every depth, in depth-first order. -/
def filesOfNodes : List FileNode → List (String × Option String)
  | [] => []
  | .mk n .file c _ :: rest => (n, c) :: filesOfNodes rest
  | .mk _ .directory _ none :: rest => filesOfNodes rest
  | .mk _ .directory _ (some cs) :: rest =>
    filesOfNodes cs ++ filesOfNodes rest

/-- Decides, for every node of a forest recursively, that exactly one
of `content` / `children` is populated and that it is the one its
`type` selects: a file node has `content` and no `children`, a
directory node has `children` and no `content`. -/
def nodesWellFormed : List FileNode → Bool
  | [] => true
  | .mk _ .file (some _) none :: rest => nodesWellFormed rest
  | .mk _ .directory none (some cs) :: rest =>
    nodesWellFormed cs && nodesWellFormed rest
  | _ :: _ => false

/-- C3: For every directory whose recursive read succeeds, the builder
returns exactly one node per entry (N files + M subdirectories give
N+M nodes), matched one-to-one by name in the order the iteration
yielded the entries, and recursively every subdirectory node's
`children` list satisfies the same property for that subdirectory's
entries. -/
theorem readEntries_matches_entries :
    ∀ (es : List FsEntry) (ns : List FileNode),
      readEntries es = Except.ok ns →
      TreeMatches es ns ∧ ns.length = es.length ∧
        ns.map FileNode.name = es.map FsEntry.name
  | [], ns, h => by
    simp only [readEntries] at h
    injection h with h
    subst h
    exact ⟨.nil, rfl, rfl⟩
  | .file n t :: rest, ns, h => by
    simp only [readEntries] at h
    cases hr : readEntries rest with
    | error e => rw [hr] at h; exact absurd h (by simp)
    | ok tail =>
      rw [hr] at h
      injection h with h
      subst h
      obtain ⟨m1, m2, m3⟩ := readEntries_matches_entries rest tail hr
      exact ⟨.file m1, by simp [m2], by simp [m3, FileNode.name, FsEntry.name]⟩
  | .badFile n err :: rest, ns, h => by
    simp only [readEntries] at h
    exact absurd h (by simp)
  | .dir n sub :: rest, ns, h => by
    simp only [readEntries] at h
    cases hs : readEntries sub with
    | error e => rw [hs] at h; exact absurd h (by simp)
    | ok children =>
      rw [hs] at h
      cases hr : readEntries rest with
      | error e => rw [hr] at h; exact absurd h (by simp)
      | ok tail =>
        rw [hr] at h
        injection h with h
        subst h
        obtain ⟨ms1, _, _⟩ := readEntries_matches_entries sub children hs
        obtain ⟨mr1, mr2, mr3⟩ := readEntries_matches_entries rest tail hr
        exact ⟨.dir ms1 mr1, by simp [mr2], by simp [mr3, FileNode.name, FsEntry.name]⟩
  | .badDir n err :: rest, ns, h => by
    simp only [readEntries] at h
    exact absurd h (by simp)

/-- C4: For every file entry processed by a succeeding recursive read,
at every depth and in depth-first order, the produced file node's
`content` is exactly the text yielded by reading that file — the
(name, content) pairs of the built nodes equal the (name, text) pairs
of the source files. -/
theorem readEntries_content_roundtrip :
    ∀ (es : List FsEntry) (ns : List FileNode),
      readEntries es = Except.ok ns →
      filesOfNodes ns = filesOfEntries es
  | [], ns, h => by
    simp only [readEntries] at h
    injection h with h
    subst h
    simp [filesOfNodes, filesOfEntries]
  | .file n t :: rest, ns, h => by
    simp only [readEntries] at h
    cases hr : readEntries rest with
    | error e => rw [hr] at h; exact absurd h (by simp)
    | ok tail =>
      rw [hr] at h
      injection h with h
      subst h
      simp [filesOfNodes, filesOfEntries,
        readEntries_content_roundtrip rest tail hr]
  | .badFile n err :: rest, ns, h => by
    simp only [readEntries] at h
    exact absurd h (by simp)
  | .dir n sub :: rest, ns, h => by
    simp only [readEntries] at h
    cases hs : readEntries sub with
    | error e => rw [hs] at h; exact absurd h (by simp)
    | ok children =>
      rw [hs] at h
      cases hr : readEntries rest with
      | error e => rw [hr] at h; exact absurd h (by simp)
      | ok tail =>
        rw [hr] at h
        injection h with h
        subst h
        simp [filesOfNodes, filesOfEntries,
          readEntries_content_roundtrip sub children hs,
          readEntries_content_roundtrip rest tail hr]
  | .badDir n err :: rest, ns, h => by
    simp only [readEntries] at h
    exact absurd h (by simp)

/-- C5: Every node in any tree the builder produces has exactly one of
{content, children} populated, determined by its `type`: a file node
carries `content` and no `children`, a directory node carries
`children` and no `content`, recursively through the whole tree. -/
theorem readEntries_wellFormed :
    ∀ (es : List FsEntry) (ns : List FileNode),
      readEntries es = Except.ok ns →
      nodesWellFormed ns = true
  | [], ns, h => by
    simp only [readEntries] at h
    injection h with h
    subst h
    simp [nodesWellFormed]
  | .file n t :: rest, ns, h => by
    simp only [readEntries] at h
    cases hr : readEntries rest with
    | error e => rw [hr] at h; exact absurd h (by simp)
    | ok tail =>
      rw [hr] at h
      injection h with h
      subst h
      simp [nodesWellFormed, readEntries_wellFormed rest tail hr]
  | .badFile n err :: rest, ns, h => by
    simp only [readEntries] at h
    exact absurd h (by simp)
  | .dir n sub :: rest, ns, h => by
    simp only [readEntries] at h
    cases hs : readEntries sub with
    | error e => rw [hs] at h; exact absurd h (by simp)
    | ok children =>
      rw [hs] at h
      cases hr : readEntries rest with
      | error e => rw [hr] at h; exact absurd h (by simp)
      | ok tail =>
        rw [hr] at h
        injection h with h
        subst h
        simp [nodesWellFormed, readEntries_wellFormed sub children hs,
          readEntries_wellFormed rest tail hr]
  | .badDir n err :: rest, ns, h => by
    simp only [readEntries] at h
    exact absurd h (by simp)

/-- Witness for C3 at a concrete two-level directory. -/
theorem readEntries_matches_entries_witness :
    TreeMatches
      [FsEntry.file "a.txt" "hello",
       FsEntry.dir "sub" [FsEntry.file "b.txt" "world"]]
      [FileNode.mk "a.txt" NodeType.file (some "hello") none,
       FileNode.mk "sub" NodeType.directory none
         (some [FileNode.mk "b.txt" NodeType.file (some "world") none])] :=
  (readEntries_matches_entries
    [FsEntry.file "a.txt" "hello",
     FsEntry.dir "sub" [FsEntry.file "b.txt" "world"]]
    [FileNode.mk "a.txt" NodeType.file (some "hello") none,
     FileNode.mk "sub" NodeType.directory none
       (some [FileNode.mk "b.txt" NodeType.file (some "world") none])]
    (by simp [readEntries])).1

/-- Witness for C4 at a concrete two-level directory. -/
theorem readEntries_content_roundtrip_witness :
    filesOfNodes
      [FileNode.mk "r.txt" NodeType.file (some "root text") none,
       FileNode.mk "d" NodeType.directory none
         (some [FileNode.mk "n.txt" NodeType.file (some "nested") none])] =
    filesOfEntries
      [FsEntry.file "r.txt" "root text",
       FsEntry.dir "d" [FsEntry.file "n.txt" "nested"]] :=
  readEntries_content_roundtrip
    [FsEntry.file "r.txt" "root text",
     FsEntry.dir "d" [FsEntry.file "n.txt" "nested"]]
    [FileNode.mk "r.txt" NodeType.file (some "root text") none,
     FileNode.mk "d" NodeType.directory none
       (some [FileNode.mk "n.txt" NodeType.file (some "nested") none])]
    (by simp [readEntries])

/-- Witness for C5 at a concrete two-level directory. -/
theorem readEntries_wellFormed_witness :
    nodesWellFormed
      [FileNode.mk "x.txt" NodeType.file (some "x") none,
       FileNode.mk "e" NodeType.directory none (some [])] = true :=
  readEntries_wellFormed
    [FsEntry.file "x.txt" "x", FsEntry.dir "e" []]
    [FileNode.mk "x.txt" NodeType.file (some "x") none,
     FileNode.mk "e" NodeType.directory none (some [])]
    (by simp [readEntries])

/-- The renderer agrees row-for-row with the spec-side depth-first
pre-order listing: same labels in the same order, and each row's
`marginLeft` is 16 px times its depth. -/
theorem renderFileTree_eq_spec :
    ∀ (nodes : List FileNode) (level : Nat),
      List.map (fun r => (Row.label r, Row.marginLeft r))
          (renderFileTree nodes level) =
        List.map (fun p => (p.1, p.2 * 16)) (renderRowsSpec nodes level)
  | [], _ => by simp [renderFileTree, renderRowsSpec]
  | .mk n t c none :: rest, level => by
    simp [renderFileTree, renderRowsSpec, Row.label, Row.marginLeft,
      renderFileTree_eq_spec rest level]
  | .mk n t c (some cs) :: rest, level => by
    simp [renderFileTree, renderRowsSpec, Row.label, Row.marginLeft,
      renderFileTree_eq_spec cs (level + 1),
      renderFileTree_eq_spec rest level]

/-- C8: The renderer emits rows in depth-first pre-order — each node's
row before its children's rows, siblings in order — indented 16 px per
depth level (it agrees with the spec-side pre-order listing
`renderRowsSpec`); in particular the builder output for
`src/{a.txt, lib/{b.txt}}` renders src at depth 0, a.txt and lib at
depth 1, and b.txt at depth 2. -/
theorem renderFileTree_preorder_depths :
    (∀ (nodes : List FileNode) (level : Nat),
        List.map (fun r => (Row.label r, Row.marginLeft r))
            (renderFileTree nodes level) =
          List.map (fun p => (p.1, p.2 * 16)) (renderRowsSpec nodes level)) ∧
    readEntries
        [FsEntry.dir "src" [FsEntry.file "a.txt" "A",
          FsEntry.dir "lib" [FsEntry.file "b.txt" "B"]]] =
      Except.ok
        [FileNode.mk "src" NodeType.directory none
          (some [FileNode.mk "a.txt" NodeType.file (some "A") none,
            FileNode.mk "lib" NodeType.directory none
              (some [FileNode.mk "b.txt" NodeType.file (some "B") none])])] ∧
    renderRowsSpec
        [FileNode.mk "src" NodeType.directory none
          (some [FileNode.mk "a.txt" NodeType.file (some "A") none,
            FileNode.mk "lib" NodeType.directory none
              (some [FileNode.mk "b.txt" NodeType.file (some "B") none])])] 0 =
      [("src", 0), ("a.txt", 1), ("lib", 1), ("b.txt", 2)] ∧
    renderFileTree
        [FileNode.mk "src" NodeType.directory none
          (some [FileNode.mk "a.txt" NodeType.file (some "A") none,
            FileNode.mk "lib" NodeType.directory none
              (some [FileNode.mk "b.txt" NodeType.file (some "B") none])])] 0 =
      [⟨"src", 0⟩, ⟨"a.txt", 16⟩, ⟨"lib", 16⟩, ⟨"b.txt", 32⟩] :=
  ⟨renderFileTree_eq_spec, by simp [readEntries], by simp [renderRowsSpec],
    by simp [renderFileTree]⟩

/-- C6: If the browser lacks `showDirectoryPicker`, the folder-pick
handler immediately sets the unsupported-API banner and changes
nothing else; the result does not depend on the picker at all, i.e.
no directory access is attempted. -/
theorem unsupported_immediate_error :
    ∀ (env : Env) (s : AppState), env.supported = false →
      handleFolderSelect env s = { s with error := some unsupportedMsg } ∧
      ∀ (p2 : Except JsError DirHandle),
        handleFolderSelect { env with picker := p2 } s =
          handleFolderSelect env s := by
  intro env s h
  constructor
  · simp [handleFolderSelect, handleFolderSelectActions, h, applyActions,
      applyAction]
  · intro p2
    simp [handleFolderSelect, handleFolderSelectActions, h, applyActions,
      applyAction]

/-- Witness for C6: unsupported browser, over the initial state. -/
theorem unsupported_immediate_error_witness :
    handleFolderSelect ⟨false, false, Except.ok (DirHandle.ok [])⟩
        initialState =
      { initialState with error := some unsupportedMsg } :=
  (unsupported_immediate_error ⟨false, false, Except.ok (DirHandle.ok [])⟩
    initialState rfl).1

/-- C10: Every folder-pick invocation's first state-setter call is
`setError(null)`; consequently, whenever the pick-and-read succeeds,
the final state shows no error banner — a stale error never survives
a successful pick. -/
theorem pick_clears_error_first :
    ∀ (env : Env) (s : AppState),
      (handleFolderSelectActions env).head? =
          some (SetterCall.setErrorAct none) ∧
      ∀ (filesData : List FileNode),
        env.supported = true → pickAndRead env = Except.ok filesData →
        handleFolderSelect env s =
          { s with files := filesData, error := none } := by
  intro env s
  constructor
  · simp [handleFolderSelectActions]
  · intro fd hsup hread
    simp [handleFolderSelect, handleFolderSelectActions, hsup, hread,
      applyActions, applyAction]

/-- Witness for C10: a successful pick from a state carrying a stale
error banner ends with no banner. -/
theorem pick_clears_error_first_witness :
    handleFolderSelect
        ⟨true, false, Except.ok (DirHandle.ok [FsEntry.file "w.txt" "w"])⟩
        { initialState with error := some fallbackMsg } =
      { initialState with
          files := [FileNode.mk "w.txt" NodeType.file (some "w") none],
          error := none } :=
  (pick_clears_error_first
    ⟨true, false, Except.ok (DirHandle.ok [FsEntry.file "w.txt" "w"])⟩
    { initialState with error := some fallbackMsg }).2
    [FileNode.mk "w.txt" NodeType.file (some "w") none] rfl
    (by simp [pickAndRead, readDirectory, readEntries])

/-- C2: When the recursive read rejects at any point, the whole pick
aborts: `files` is left exactly as it was and the failure becomes the
single error-banner message — no partial tree is ever committed. -/
theorem read_failure_aborts :
    ∀ (env : Env) (s : AppState) (dh : DirHandle) (e : JsError),
      env.supported = true → env.inIframe = false →
      env.picker = Except.ok dh → readDirectory dh = Except.error e →
      (handleFolderSelect env s).files = s.files ∧
      (handleFolderSelect env s).error = some (catchMessage e) := by
  intro env s dh e hsup hif hpick hread
  have hpr : pickAndRead env = Except.error e := by
    simp [pickAndRead, hif, hpick, hread]
  constructor <;>
    simp [handleFolderSelect, handleFolderSelectActions, hsup, hpr,
      applyActions, applyAction]

/-- Witness for C2: a file read failing at depth 2 leaves the prior
tree in place and raises the banner with the rejection's message. -/
theorem read_failure_aborts_witness :
    (handleFolderSelect
        ⟨true, false, Except.ok (DirHandle.ok
          [FsEntry.dir "d" [FsEntry.badFile "x" ⟨"NotReadableError", "boom"⟩]])⟩
        { initialState with
            files := [FileNode.mk "old.txt" NodeType.file (some "o") none] }).files =
      [FileNode.mk "old.txt" NodeType.file (some "o") none] ∧
    (handleFolderSelect
        ⟨true, false, Except.ok (DirHandle.ok
          [FsEntry.dir "d" [FsEntry.badFile "x" ⟨"NotReadableError", "boom"⟩]])⟩
        { initialState with
            files := [FileNode.mk "old.txt" NodeType.file (some "o") none] }).error =
      some "boom" := by
  have h := read_failure_aborts
    ⟨true, false, Except.ok (DirHandle.ok
      [FsEntry.dir "d" [FsEntry.badFile "x" ⟨"NotReadableError", "boom"⟩]])⟩
    { initialState with
        files := [FileNode.mk "old.txt" NodeType.file (some "o") none] }
    (DirHandle.ok
      [FsEntry.dir "d" [FsEntry.badFile "x" ⟨"NotReadableError", "boom"⟩]])
    ⟨"NotReadableError", "boom"⟩ rfl rfl rfl
    (by simp [readDirectory, readEntries])
  exact ⟨h.1, by rw [h.2]; simp [catchMessage]⟩

/-- C1 counterexample: a bare user cancellation — `showDirectoryPicker`
rejecting with an AbortError — is NOT swallowed silently: starting
from the initial state (no banner), the handler sets the error banner
to the rejection's message, contradicting the claim that no error
banner is shown on cancellation. -/
theorem cancellation_not_silent :
    (handleFolderSelect
        ⟨true, false,
          Except.error ⟨"AbortError", "The user aborted a request."⟩⟩
        initialState).error = some "The user aborted a request." ∧
    initialState.error = none := by
  constructor
  · simp [handleFolderSelect, handleFolderSelectActions, pickAndRead,
      applyActions, applyAction, catchMessage]
  · rfl

/-- C1 amended: for every folder-pick attempt in which the picker
rejects — a user cancellation (AbortError) included — the file tree
`files` is left unchanged, but an error banner IS shown: the catch
block does not special-case cancellation, so the banner carries the
rejection's message (the security message for a SecurityError, the
generic fallback when the message is empty). -/
theorem picker_rejection_surfaces_message :
    ∀ (env : Env) (s : AppState) (e : JsError),
      env.supported = true → env.inIframe = false →
      env.picker = Except.error e →
      (handleFolderSelect env s).files = s.files ∧
      (handleFolderSelect env s).error = some (catchMessage e) := by
  intro env s e hsup hif hpick
  have hpr : pickAndRead env = Except.error e := by
    simp [pickAndRead, hif, hpick]
  constructor <;>
    simp [handleFolderSelect, handleFolderSelectActions, hsup, hpr,
      applyActions, applyAction]

/-- Witness for amended C1: a cancellation with a prior tree keeps the
tree and raises the banner with the cancellation's message. -/
theorem picker_rejection_surfaces_message_witness :
    (handleFolderSelect
        ⟨true, false,
          Except.error ⟨"AbortError", "The user aborted a request."⟩⟩
        { initialState with
            files := [FileNode.mk "kept.txt" NodeType.file (some "k") none] }).files =
      [FileNode.mk "kept.txt" NodeType.file (some "k") none] ∧
    (handleFolderSelect
        ⟨true, false,
          Except.error ⟨"AbortError", "The user aborted a request."⟩⟩
        { initialState with
            files := [FileNode.mk "kept.txt" NodeType.file (some "k") none] }).error =
      some "The user aborted a request." := by
  have h := picker_rejection_surfaces_message
    ⟨true, false,
      Except.error ⟨"AbortError", "The user aborted a request."⟩⟩
    { initialState with
        files := [FileNode.mk "kept.txt" NodeType.file (some "k") none] }
    ⟨"AbortError", "The user aborted a request."⟩ rfl rfl rfl
  exact ⟨h.1, by rw [h.2]; simp [catchMessage]⟩

/-- JavaScript `(some c) || ''` is just `c`: when `c` is empty the
default `''` returned is the same string. -/
theorem jsOrElse_some (c : String) : jsOrElse (some c) "" = c := by
  by_cases h : c = "" <;> simp [jsOrElse, h]

/-- C7: Selecting file A then file B leaves the singleton selection
equal to exactly {B.name, B.content}; the prior selection is fully
discarded, and the result equals what selecting B from the initial
(Empty) state gives. -/
theorem selectFile_singleton :
    ∀ (a b : FileNode) (s : AppState) (cb : String),
      FileNode.type a = NodeType.file → FileNode.type b = NodeType.file →
      FileNode.content b = some cb →
      (handleRowClick b (handleRowClick a s)).selectedFile =
          some ⟨FileNode.name b, cb⟩ ∧
      (handleRowClick b (handleRowClick a s)).selectedFile =
        (handleRowClick b initialState).selectedFile := by
  intro a b s cb ha hb hc
  have hsel : ∀ (s2 : AppState),
      (handleRowClick b s2).selectedFile = some ⟨FileNode.name b, cb⟩ := by
    intro s2
    simp [handleRowClick, hb, hc, jsOrElse_some]
  exact ⟨hsel _, by rw [hsel, hsel]⟩

/-- Witness for C7 at two concrete file nodes. -/
theorem selectFile_singleton_witness :
    (handleRowClick (FileNode.mk "b.txt" NodeType.file (some "bee") none)
        (handleRowClick (FileNode.mk "a.txt" NodeType.file (some "aye") none)
          initialState)).selectedFile = some ⟨"b.txt", "bee"⟩ :=
  (selectFile_singleton (FileNode.mk "a.txt" NodeType.file (some "aye") none)
    (FileNode.mk "b.txt" NodeType.file (some "bee") none) initialState "bee"
    rfl rfl rfl).1

/-- C9: Clicking the row of a directory-kind node is a complete no-op
on the component state: the click handler updates the selection only
when the clicked node's kind is file. -/
theorem directory_click_noop :
    ∀ (node : FileNode) (s : AppState),
      FileNode.type node = NodeType.directory →
      handleRowClick node s = s := by
  intro node s h
  simp [handleRowClick, h]

/-- Witness for C9: clicking a directory row while a file is selected
changes nothing. -/
theorem directory_click_noop_witness :
    handleRowClick (FileNode.mk "lib" NodeType.directory none (some []))
        { initialState with selectedFile := some ⟨"a.txt", "aye"⟩ } =
      { initialState with selectedFile := some ⟨"a.txt", "aye"⟩ } :=
  directory_click_noop (FileNode.mk "lib" NodeType.directory none (some []))
    { initialState with selectedFile := some ⟨"a.txt", "aye"⟩ } rfl
